import Mathlib

/-!
Verification of the granola-mcp reliability/consistency layer.

Shallow embedding of:
- the SQLite-backed cache decorator (`internal/infrastructure/cache/repository.go`)
- the SQLite outbox store (`internal/infrastructure/outbox`)
- the composition-root wiring (`cmd/granola-mcp/main.go`)
- the circuit breaker and outbox dispatcher (modelled from the spec; their
  implementation files are not part of the examined sources)

Timestamps are modelled as natural numbers (UTC seconds).  RFC3339
serialization of a whole-second UTC instant round-trips, so the cache
snapshot's datetime field is kept as a number rather than a string.
-/

deriving instance DecidableEq for Except

namespace GranolaMCP

/-! ## Domain collaborator shapes

The domain package (`internal/domain/meeting`) is a collaborator of the
verified layer; per the spec (§6) each domain event exposes an event name
and the entity id it concerns.  `meeting.created` (Go type
`domain.MeetingCreated`) is the concrete type the cache decorator tests
for; `transcript.ready` is another concrete event type appearing in the
sources (webhook handler). -/

/-- Modelled from the spec: domain events expose an event name/type and the
entity id(s) they concern (§6); concrete Go types include
`domain.MeetingCreated` ("meeting.created") and a transcript-ready event
("transcript.ready"). -/
inductive DomainEvent where
  | meetingCreated (meetingId : String) (title : String) (datetime : Nat)
  | transcriptReady (meetingId : String)
deriving DecidableEq, Repr

/-- The entity id an event concerns (spec §6). -/
def DomainEvent.entityId : DomainEvent → String
  | .meetingCreated mid _ _ => mid
  | .transcriptReady mid => mid

/-- The event name (spec §6; `EventName()` in the Go domain interface). -/
def DomainEvent.eventName : DomainEvent → String
  | .meetingCreated _ _ _ => "meeting.created"
  | .transcriptReady _ => "transcript.ready"

/-- Errors surfaced by repository operations (domain error values plus the
synthetic resilience errors of spec §7). -/
inductive RepoError where
  | notFound
  | unauthorized
  | rateLimited
  | circuitOpen
  | invalidMeeting
deriving DecidableEq, Repr

/-- Modelled from the spec and the usage in `src`: `domain.Meeting` with
accessors `ID()`, `Title()`, `Datetime()`, `Source()`; it also carries
participants and recorded domain events (cleared by `ClearDomainEvents`). -/
structure Meeting where
  id : String
  title : String
  datetime : Nat
  source : String
  participants : List String
  domainEvents : List DomainEvent
deriving DecidableEq, Repr

/-- Modelled from the spec and the usage in `src`: `domain.New` validates its
arguments (a meeting must carry an identifier and a title) and records a
`MeetingCreated` domain event, which callers clear via `ClearDomainEvents`. -/
def Meeting.new (id title : String) (datetime : Nat) (source : String)
    (participants : List String) : Except RepoError Meeting :=
  if id = "" then .error .invalidMeeting
  else if title = "" then .error .invalidMeeting
  else .ok { id := id, title := title, datetime := datetime, source := source,
             participants := participants,
             domainEvents := [.meetingCreated id title datetime] }

/-- Embeds `Meeting.ClearDomainEvents` from the Go domain package. -/
def Meeting.clearDomainEvents (m : Meeting) : Meeting :=
  { m with domainEvents := [] }

/-! ## Cache store (`internal/infrastructure/cache/repository.go`)

The `cache_entries` table has `key` as PRIMARY KEY and columns
`value` (the JSON-serialized `meetingCacheEntry`) and `expires_at`.
The table is modelled as a list of rows; `INSERT OR REPLACE` removes any
row with the same key, so by construction keys stay unique. -/

/-- Go `meetingCacheEntry`: the serialized form of a Meeting for cache storage
(fields id, title, datetime, source — repository.go lines 70-75).  JSON
marshalling of this flat struct round-trips, so the stored BLOB is modelled
as the entry itself. -/
structure MeetingCacheEntry where
  id : String
  title : String
  datetime : Nat
  source : String
deriving DecidableEq, Repr

/-- Go `toMeetingCacheEntry` (repository.go lines 77-84). -/
def toMeetingCacheEntry (m : Meeting) : MeetingCacheEntry :=
  { id := m.id, title := m.title, datetime := m.datetime, source := m.source }

/-- A single row of the `cache_entries` table. -/
structure CacheRow where
  key : String
  value : MeetingCacheEntry
  expiresAt : Nat
deriving DecidableEq, Repr

/-- The `cache_entries` table. -/
abbrev CacheDB := List CacheRow

namespace CachedRepository

/-- Embeds `CachedRepository.get` (repository.go lines 44-54):
`SELECT value FROM cache_entries WHERE key = ? AND expires_at > ?`
with `?` = now; returns the value and a found flag. -/
def get (db : CacheDB) (now : Nat) (key : String) : Option MeetingCacheEntry :=
  (List.find? (fun r => r.key == key && decide (now < r.expiresAt)) db).map
    (fun r => r.value)

/-- Embeds `CachedRepository.set` (repository.go lines 56-61):
`INSERT OR REPLACE INTO cache_entries (key, value, expires_at)` with
`expires_at = now + ttl`. -/
def set (db : CacheDB) (now ttl : Nat) (key : String)
    (value : MeetingCacheEntry) : CacheDB :=
  { key := key, value := value, expiresAt := now + ttl } ::
    List.filter (fun r => r.key != key) db

/-- Embeds `CachedRepository.Evict` (repository.go lines 64-67):
`DELETE FROM cache_entries WHERE expires_at <= ?` with `?` = now. -/
def evict (db : CacheDB) (now : Nat) : CacheDB :=
  List.filter (fun r => decide (now < r.expiresAt)) db

/-- Outcome of a `FindByID` call: the returned value, the cache table
afterwards, and how many times the inner repository's FindByID ran. -/
structure FindOutcome where
  result : Except RepoError Meeting
  db : CacheDB
  innerCalls : Nat
deriving DecidableEq, Repr

/-- The miss path of `FindByID` (repository.go lines 100-108): call the
inner repository; on success marshal the snapshot and store it. -/
def fetchAndStore (inner : String → Except RepoError Meeting)
    (ttl now : Nat) (db : CacheDB) (id : String) : FindOutcome :=
  match inner id with
  | .error e => { result := .error e, db := db, innerCalls := 1 }
  | .ok m =>
      { result := .ok m,
        db := set db now ttl ("meeting:" ++ id) (toMeetingCacheEntry m),
        innerCalls := 1 }

/-- Embeds `CachedRepository.FindByID` (repository.go lines 86-109): on a cache
hit, unmarshal the snapshot and rebuild the meeting via `domain.New` with
nil participants, clearing its domain events; if rebuilding fails, fall
through to the inner repository as on a miss. -/
def findByID (inner : String → Except RepoError Meeting)
    (ttl now : Nat) (db : CacheDB) (id : String) : FindOutcome :=
  match get db now ("meeting:" ++ id) with
  | some entry =>
      match Meeting.new entry.id entry.title entry.datetime entry.source [] with
      | .ok m => { result := .ok m.clearDomainEvents, db := db, innerCalls := 0 }
      | .error _ => fetchAndStore inner ttl now db id
  | none => fetchAndStore inner ttl now db id

/-- The cache-invalidation loop of `CachedRepository.Sync`
(repository.go lines 137-142): for each returned event, delete the row
`meeting:<id>` only when the event's concrete type is
`domain.MeetingCreated`. -/
def syncInvalidate (db : CacheDB) (events : List DomainEvent) : CacheDB :=
  events.foldl
    (fun acc e =>
      match e with
      | .meetingCreated mid _ _ =>
          List.filter (fun r => r.key != "meeting:" ++ mid) acc
      | _ => acc)
    db

/-- Embeds `CachedRepository.Sync` (repository.go lines 131-144): delegate to the
inner repository; on error return it; on success run the invalidation loop
and return the events. -/
def sync (innerSync : Except RepoError (List DomainEvent)) (db : CacheDB) :
    Except RepoError (List DomainEvent) × CacheDB :=
  match innerSync with
  | .error e => (.error e, db)
  | .ok events => (.ok events, syncInvalidate db events)

end CachedRepository

/-! ## Outbox store (`internal/infrastructure/outbox`, SQLiteStore)

The `outbox_entries` table has columns
`id (primary key), event_type, payload, status, created_at, synced_at, attempts`
(spec §6 durable schema).  The table is modelled as a list of rows in
insertion order. -/

/-- Go `outbox.Entry` (the caller-supplied record; `Payload` may be nil). -/
structure OutboxEntry where
  id : String
  eventType : String
  payload : Option (List Nat)
  createdAt : Nat
deriving DecidableEq, Repr

/-- One row of the `outbox_entries` table. -/
structure OutboxRow where
  id : String
  eventType : String
  payload : List Nat
  status : String
  createdAt : Nat
  syncedAt : Option Nat
  attempts : Nat
deriving DecidableEq, Repr

/-- The `outbox_entries` table. -/
abbrev OutboxTable := List OutboxRow

/-- Errors surfaced by the store (the SQL layer; a plain INSERT on a
primary-key column fails on a duplicate id). -/
inductive StoreError where
  | uniqueViolation
deriving DecidableEq, Repr

/-- The two ASCII bytes of the empty-object JSON text substituted for a nil payload
(part_004 lines 42-45). -/
def emptyJsonPayload : List Nat := [123, 125]

namespace SQLiteStore

/-- Embeds `SQLiteStore.Append` (part_004 lines 41-51): INSERT with
status 'pending', attempts 0, a nil payload replaced by "{}", and
`synced_at` left NULL.  `id` is the table's primary key (spec §6), so the
INSERT fails on a duplicate id. -/
def append (t : OutboxTable) (e : OutboxEntry) : Except StoreError OutboxTable :=
  if t.any (fun r => r.id == e.id) then .error .uniqueViolation
  else .ok (t ++ [{ id := e.id, eventType := e.eventType,
                    payload := e.payload.getD emptyJsonPayload,
                    status := "pending", createdAt := e.createdAt,
                    syncedAt := none, attempts := 0 }])

/-- The ORDER BY relation of `ListPending`: ascending creation time. -/
def createdLE (a b : OutboxRow) : Prop := a.createdAt ≤ b.createdAt

instance : DecidableRel createdLE := fun a b => Nat.decLe a.createdAt b.createdAt

instance : IsTotal OutboxRow createdLE := ⟨fun a b => Nat.le_total a.createdAt b.createdAt⟩

instance : IsTrans OutboxRow createdLE := ⟨fun _ _ _ h h' => Nat.le_trans h h'⟩

/-- Embeds `SQLiteStore.ListPending` (part_004 lines 53-78):
`SELECT ... WHERE status = 'pending' ORDER BY created_at ASC`. -/
def listPending (t : OutboxTable) : List OutboxRow :=
  List.insertionSort createdLE (List.filter (fun r => r.status == "pending") t)

/-- Embeds `SQLiteStore.MarkSynced` (part_004 lines 80-87):
`UPDATE outbox_entries SET status = 'synced', synced_at = ? WHERE id = ?`. -/
def markSynced (t : OutboxTable) (id : String) (now : Nat) : OutboxTable :=
  t.map (fun r => if r.id == id
                  then { r with status := "synced", syncedAt := some now }
                  else r)

/-- Embeds `SQLiteStore.MarkFailed` (part_004 lines 89-95):
`UPDATE outbox_entries SET status = 'failed', attempts = attempts + 1 WHERE id = ?`. -/
def markFailed (t : OutboxTable) (id : String) : OutboxTable :=
  t.map (fun r => if r.id == id
                  then { r with status := "failed", attempts := r.attempts + 1 }
                  else r)

end SQLiteStore

/-- The ids of a table's rows, in table order. -/
def rowIds (t : OutboxTable) : List String := t.map OutboxRow.id

/-- The row a successful Append inserts. -/
def SQLiteStore.rowOf (e : OutboxEntry) : OutboxRow :=
  { id := e.id, eventType := e.eventType,
    payload := e.payload.getD emptyJsonPayload,
    status := "pending", createdAt := e.createdAt,
    syncedAt := none, attempts := 0 }

/-! ## Outbox dispatcher (modelled) -/

/-- Modelled from the spec: `outbox.Dispatcher.Dispatch` (§4.6) — the
dispatcher's implementation file is not among the examined sources, only
its constructor call in the composition root.  For each event: serialize it
to an `OutboxEntry` (via `entryOf`, fresh ids supplied by the serializer)
and Append it durably before attempting delivery; a failing Append aborts
with its error.  Then forward to the inner event dispatcher (outcome given
by the `forwardOk` oracle); on success MarkSynced, on failure MarkFailed,
and do not propagate the forwarding error. -/
def Dispatcher.dispatch (entryOf : DomainEvent → OutboxEntry)
    (forwardOk : DomainEvent → Bool) (now : Nat) :
    List DomainEvent → OutboxTable → Except StoreError OutboxTable
  | [], t => .ok t
  | e :: rest, t =>
      match SQLiteStore.append t (entryOf e) with
      | .error err => .error err
      | .ok t1 =>
          let t2 := if forwardOk e
                    then SQLiteStore.markSynced t1 (entryOf e).id now
                    else SQLiteStore.markFailed t1 (entryOf e).id
          Dispatcher.dispatch entryOf forwardOk now rest t2

/-! ## Circuit breaker and resilient call gate (modelled)

The resilience middleware's implementation file is not among the examined
sources (only its tests); the breaker below is modelled from spec §4.1 and
the call gate from §4.4 steps (2) and (5), with rate limiting, timeout and
retry abstracted into the single `inner` outcome. -/

/-- Breaker states (spec §3, §4.1). -/
inductive BreakerState where
  | closed
  | opened
  | halfOpen
deriving DecidableEq, Repr

/-- Modelled from the spec: BreakerState record (§3) together with its
configuration (§6): consecutive failure/success counters, the time of the
last transition, and the thresholds/timeout. -/
structure Breaker where
  state : BreakerState
  consecutiveFailures : Nat
  consecutiveSuccesses : Nat
  lastTransitionAt : Nat
  failureThreshold : Nat
  successThreshold : Nat
  halfOpenTimeout : Nat
deriving DecidableEq, Repr

namespace Breaker

/-- Modelled from the spec: `OnFailure` (§4.1) — Closed opens once
consecutiveFailures reaches failureThreshold (resetting
consecutiveSuccesses and stamping lastTransitionAt); any failure while
HalfOpen reopens immediately. -/
def onFailure (b : Breaker) (now : Nat) : Breaker :=
  match b.state with
  | .closed =>
      if b.failureThreshold ≤ b.consecutiveFailures + 1 then
        { b with state := .opened,
                 consecutiveFailures := b.consecutiveFailures + 1,
                 consecutiveSuccesses := 0,
                 lastTransitionAt := now }
      else { b with consecutiveFailures := b.consecutiveFailures + 1 }
  | .halfOpen =>
      { b with state := .opened,
               consecutiveFailures := b.consecutiveFailures + 1,
               consecutiveSuccesses := 0,
               lastTransitionAt := now }
  | .opened => { b with consecutiveFailures := b.consecutiveFailures + 1 }

/-- Modelled from the spec: `OnSuccess` (§4.1) — Closed resets
consecutiveFailures; HalfOpen closes after successThreshold consecutive
successes. -/
def onSuccess (b : Breaker) (now : Nat) : Breaker :=
  match b.state with
  | .closed => { b with consecutiveFailures := 0,
                        consecutiveSuccesses := b.consecutiveSuccesses + 1 }
  | .halfOpen =>
      if b.successThreshold ≤ b.consecutiveSuccesses + 1 then
        { b with state := .closed,
                 consecutiveFailures := 0,
                 consecutiveSuccesses := b.consecutiveSuccesses + 1,
                 lastTransitionAt := now }
      else { b with consecutiveSuccesses := b.consecutiveSuccesses + 1 }
  | .opened => b

/-- Modelled from the spec: `Allow` (§4.1) — Closed and HalfOpen permit the
call; Open permits it (transitioning to HalfOpen) only once halfOpenTimeout
has elapsed since lastTransitionAt, and otherwise returns false. -/
def allow (b : Breaker) (now : Nat) : Bool × Breaker :=
  match b.state with
  | .closed => (true, b)
  | .halfOpen => (true, b)
  | .opened =>
      if b.lastTransitionAt + b.halfOpenTimeout ≤ now then
        (true, { b with state := .halfOpen,
                        consecutiveSuccesses := 0,
                        lastTransitionAt := now })
      else (false, b)

/-- Folding a sequence of observed failures (with their times) into the
breaker. -/
def applyFailures (b : Breaker) (times : List Nat) : Breaker :=
  times.foldl onFailure b

end Breaker

/-- Outcome of one call through the resilient repository: the result, the
breaker afterwards, and how many times the inner dependency was invoked. -/
structure CallOutcome (α : Type) where
  result : Except RepoError α
  breaker : Breaker
  innerCalls : Nat

/-- Modelled from the spec: the breaker gate of a resilient-repository call
(§4.4): if `Allow()` is false, fail immediately with a CircuitOpenError
without touching the dependency; otherwise run the (rate-limited,
timeout-bounded, retried) inner call, whose final outcome `inner` is
reported to the breaker. -/
def resilientCall {α : Type} (b : Breaker) (now : Nat)
    (inner : Except RepoError α) : CallOutcome α :=
  match Breaker.allow b now with
  | (false, b') => { result := .error .circuitOpen, breaker := b', innerCalls := 0 }
  | (true, b') =>
      match inner with
      | .ok v => { result := .ok v, breaker := b'.onSuccess now, innerCalls := 1 }
      | .error e => { result := .error e, breaker := b'.onFailure now, innerCalls := 1 }

/-! ## Composition root (`cmd/granola-mcp/main.go` lines 62-73) -/

/-- Go `config.Retry` fields used by the wiring. -/
structure RetrySettings where
  maxAttempts : Nat
  initialDelay : Nat
  maxDelay : Nat
deriving DecidableEq, Repr

/-- Go `config.CircuitBreaker` fields used by the wiring. -/
structure CircuitBreakerSettings where
  failureThreshold : Nat
  successThreshold : Nat
  halfOpenTimeout : Nat
deriving DecidableEq, Repr

/-- Go `config.RateLimit` fields used by the wiring: a base rate per interval.
There is no burst field — the configuration surface offers no independent
burst knob. -/
structure RateLimitSettings where
  rate : Nat
  interval : Nat
deriving DecidableEq, Repr

/-- The `cfg.Resilience` section consumed by the wiring. -/
structure ResilienceSettings where
  timeout : Nat
  retry : RetrySettings
  circuitBreaker : CircuitBreakerSettings
  rateLimit : RateLimitSettings
deriving DecidableEq, Repr

/-- Go `resilience.Config` as constructed in main.go. -/
structure ResilienceConfig where
  timeout : Nat
  maxRetries : Nat
  retryDelay : Nat
  retryMaxDelay : Nat
  failureThreshold : Nat
  successThreshold : Nat
  halfOpenTimeout : Nat
  rateLimit : Nat
  rateBurst : Nat
  rateInterval : Nat
deriving DecidableEq, Repr

/-- The `resilience.Config` literal of main.go lines 62-73, as a function of
the loaded configuration: in particular
`RateBurst: cfg.Resilience.RateLimit.Rate * 2` (line 71). -/
def mkResilienceConfig (res : ResilienceSettings) : ResilienceConfig :=
  { timeout := res.timeout,
    maxRetries := res.retry.maxAttempts,
    retryDelay := res.retry.initialDelay,
    retryMaxDelay := res.retry.maxDelay,
    failureThreshold := res.circuitBreaker.failureThreshold,
    successThreshold := res.circuitBreaker.successThreshold,
    halfOpenTimeout := res.circuitBreaker.halfOpenTimeout,
    rateLimit := res.rateLimit.rate,
    rateBurst := res.rateLimit.rate * 2,
    rateInterval := res.rateLimit.interval }

end GranolaMCP

/-! ## Helper lemmas -/

namespace GranolaMCP

/-- The number of inner calls a miss path makes is always one. -/
theorem fetchAndStore_innerCalls (inner : String → Except RepoError Meeting)
    (ttl now : Nat) (db : CacheDB) (id : String) :
    (CachedRepository.fetchAndStore inner ttl now db id).innerCalls = 1 := by
  cases h : inner id <;> simp [CachedRepository.fetchAndStore, h]

/-- Invalidation only ever drops rows: the post-sync table is a sublist of
the pre-sync table. -/
theorem syncInvalidate_sublist (events : List DomainEvent) (db : CacheDB) :
    (CachedRepository.syncInvalidate db events).Sublist db := by
  induction events generalizing db with
  | nil => exact List.Sublist.refl _
  | cons e rest ih =>
      cases e with
      | meetingCreated mid title dt =>
          exact (ih _).trans (List.filter_sublist _)
      | transcriptReady mid =>
          exact ih db

/-- After invalidation driven by an event list containing a
`meetingCreated mid` event, no surviving row carries that meeting's key. -/
theorem syncInvalidate_removes (events : List DomainEvent)
    (mid title : String) (dt : Nat) :
    ∀ db : CacheDB, DomainEvent.meetingCreated mid title dt ∈ events →
      ∀ r ∈ CachedRepository.syncInvalidate db events, r.key ≠ "meeting:" ++ mid := by
  induction events with
  | nil => intro db hev; cases hev
  | cons e rest ih =>
      intro db hev r hr
      rcases List.mem_cons.mp hev with he | he
      · subst he
        have hsub : (CachedRepository.syncInvalidate
            (List.filter (fun r => r.key != "meeting:" ++ mid) db) rest).Sublist
            (List.filter (fun r => r.key != "meeting:" ++ mid) db) :=
          syncInvalidate_sublist rest _
        have hmem : r ∈ List.filter (fun r => r.key != "meeting:" ++ mid) db :=
          hsub.mem hr
        simpa using List.of_mem_filter hmem
      · cases e with
        | meetingCreated mid' title' dt' => exact ih _ he r hr
        | transcriptReady mid' => exact ih _ he r hr

/-- Reading a key right after setting it, before its expiry, yields the
stored value. -/
theorem get_set_fresh (db : CacheDB) (now ttl : Nat) (key : String)
    (value : MeetingCacheEntry) (t1 : Nat) (h : t1 < now + ttl) :
    CachedRepository.get (CachedRepository.set db now ttl key value) t1 key
      = some value := by
  simp [CachedRepository.get, CachedRepository.set, List.find?_cons, h]

/-- The participants of a successfully constructed meeting are exactly the
ones supplied. -/
theorem meeting_new_participants (i t : String) (d : Nat) (s : String)
    (ps : List String) (m : Meeting) (h : Meeting.new i t d s ps = .ok m) :
    m.participants = ps := by
  unfold Meeting.new at h
  split at h
  · cases h
  · split at h
    · cases h
    · cases h
      rfl

/-- Appending an entry whose id is not yet present succeeds and appends the
pending row. -/
theorem append_fresh (t : OutboxTable) (e : OutboxEntry)
    (h : e.id ∉ rowIds t) :
    SQLiteStore.append t e = .ok (t ++ [SQLiteStore.rowOf e]) := by
  have hany : t.any (fun r => r.id == e.id) = false := by
    simp only [List.any_eq_false, beq_iff_eq]
    intro r hr hEq
    exact h (hEq ▸ List.mem_map_of_mem OutboxRow.id hr)
  rw [SQLiteStore.append, hany]
  rfl

/-- MarkSynced does not change which ids are present. -/
theorem rowIds_markSynced (t : OutboxTable) (id : String) (now : Nat) :
    rowIds (SQLiteStore.markSynced t id now) = rowIds t := by
  unfold rowIds SQLiteStore.markSynced
  rw [List.map_map]
  apply List.map_congr_left
  intro r _
  by_cases h : r.id = id <;> simp [h]

/-- MarkFailed does not change which ids are present. -/
theorem rowIds_markFailed (t : OutboxTable) (id : String) :
    rowIds (SQLiteStore.markFailed t id) = rowIds t := by
  unfold rowIds SQLiteStore.markFailed
  rw [List.map_map]
  apply List.map_congr_left
  intro r _
  by_cases h : r.id = id <;> simp [h]

/-- A table with no row of id `x` filters to nothing on `x`. -/
theorem filter_id_eq_nil (t : OutboxTable) (x : String) (h : x ∉ rowIds t) :
    t.filter (fun r => r.id == x) = [] := by
  rw [List.filter_eq_nil_iff]
  intro r hr
  simp only [Bool.not_eq_true, beq_eq_false_iff_ne, ne_eq]
  intro hEq
  exact h (hEq ▸ List.mem_map_of_mem OutboxRow.id hr)

/-- An id-preserving per-row update that fixes every row of id `x` leaves
the rows of id `x` untouched. -/
theorem filter_map_of_fix (f : OutboxRow → OutboxRow) (x : String)
    (hfix : ∀ r, r.id = x → f r = r) (hpres : ∀ r, (f r).id = r.id)
    (t : OutboxTable) :
    (t.map f).filter (fun r => r.id == x) = t.filter (fun r => r.id == x) := by
  induction t with
  | nil => rfl
  | cons r rs ih =>
      rw [List.map_cons, List.filter_cons, List.filter_cons]
      have hpr : ((f r).id == x) = (r.id == x) := by rw [hpres]
      rw [hpr]
      by_cases hx : r.id = x
      · rw [hfix r hx]
        simp [hx, ih]
      · simp [hx, ih]

/-- MarkSynced of a different id leaves the rows of id `x` untouched. -/
theorem filter_markSynced_ne (t : OutboxTable) (id x : String) (now : Nat)
    (h : id ≠ x) :
    (SQLiteStore.markSynced t id now).filter (fun r => r.id == x)
      = t.filter (fun r => r.id == x) := by
  apply filter_map_of_fix
  · intro r hx
    have : r.id ≠ id := fun hEq => h (hEq ▸ hx)
    simp [this]
  · intro r
    by_cases hr : r.id = id <;> simp [hr]

/-- MarkFailed of a different id leaves the rows of id `x` untouched. -/
theorem filter_markFailed_ne (t : OutboxTable) (id x : String)
    (h : id ≠ x) :
    (SQLiteStore.markFailed t id).filter (fun r => r.id == x)
      = t.filter (fun r => r.id == x) := by
  apply filter_map_of_fix
  · intro r hx
    have : r.id ≠ id := fun hEq => h (hEq ▸ hx)
    simp [this]
  · intro r
    by_cases hr : r.id = id <;> simp [hr]

/-- A row belongs to ListPending exactly when it belongs to the table with
status pending. -/
theorem listPending_mem (t : OutboxTable) (r : OutboxRow) :
    r ∈ SQLiteStore.listPending t ↔ r ∈ t ∧ r.status = "pending" := by
  rw [SQLiteStore.listPending, (List.perm_insertionSort _ _).mem_iff, List.mem_filter]
  simp

end GranolaMCP

namespace GranolaMCP

/-- A breaker that is Open stays Open under further failures. -/
theorem onFailure_opened (b : Breaker) (now : Nat) (h : b.state = .opened) :
    (b.onFailure now).state = .opened := by
  simp [Breaker.onFailure, h]

/-- A breaker that is Open stays Open under any further failure sequence. -/
theorem applyFailures_opened (times : List Nat) (b : Breaker)
    (h : b.state = .opened) :
    (Breaker.applyFailures b times).state = .opened := by
  induction times generalizing b with
  | nil => exact h
  | cons t ts ih => exact ih _ (onFailure_opened b t h)

/-- A Closed breaker fed enough consecutive failures to reach its threshold
ends up Open. -/
theorem applyFailures_opens (times : List Nat) :
    ∀ b : Breaker, b.state = .closed →
      b.consecutiveFailures < b.failureThreshold →
      b.failureThreshold ≤ b.consecutiveFailures + times.length →
      (Breaker.applyFailures b times).state = .opened := by
  induction times with
  | nil =>
      intro b _ hlt hle
      simp only [List.length_nil, Nat.add_zero] at hle
      exact absurd hle (by omega)
  | cons t ts ih =>
      intro b hc hlt hle
      show (Breaker.applyFailures (b.onFailure t) ts).state = .opened
      by_cases hth : b.failureThreshold ≤ b.consecutiveFailures + 1
      · have hop : (b.onFailure t).state = .opened := by
          simp [Breaker.onFailure, hc, hth]
        exact applyFailures_opened ts _ hop
      · have hstate : (b.onFailure t).state = .closed := by
          simp [Breaker.onFailure, hc, hth]
        have hcf : (b.onFailure t).consecutiveFailures = b.consecutiveFailures + 1 := by
          simp [Breaker.onFailure, hc, hth]
        have hft : (b.onFailure t).failureThreshold = b.failureThreshold := by
          simp [Breaker.onFailure, hc, hth]
        apply ih _ hstate
        · rw [hcf, hft]; omega
        · rw [hcf, hft]
          simp only [List.length_cons] at hle
          omega

/-- Rows whose id is named by no dispatched event survive a successful
dispatch run unchanged (as a filtered sub-table). -/
theorem dispatch_filter_preserve (entryOf : DomainEvent → OutboxEntry)
    (forwardOk : DomainEvent → Bool) (now : Nat) (x : String) :
    ∀ (events : List DomainEvent) (t t' : OutboxTable),
      Dispatcher.dispatch entryOf forwardOk now events t = .ok t' →
      (∀ e ∈ events, (entryOf e).id ≠ x) →
      t'.filter (fun r => r.id == x) = t.filter (fun r => r.id == x) := by
  intro events
  induction events with
  | nil =>
      intro t t' h _
      cases h
      rfl
  | cons e rest ih =>
      intro t t' h hne
      unfold Dispatcher.dispatch at h
      cases happ : SQLiteStore.append t (entryOf e) with
      | error err => rw [happ] at h; cases h
      | ok t1 =>
          rw [happ] at h
          simp only [] at h
          have hid : (entryOf e).id ≠ x := hne e (List.mem_cons_self e rest)
          have ht1 : t1.filter (fun r => r.id == x) = t.filter (fun r => r.id == x) := by
            unfold SQLiteStore.append at happ
            split at happ
            · cases happ
            · cases happ
              rw [List.filter_append]
              have : List.filter (fun r => r.id == x)
                  [({ id := (entryOf e).id, eventType := (entryOf e).eventType,
                      payload := (entryOf e).payload.getD emptyJsonPayload,
                      status := "pending", createdAt := (entryOf e).createdAt,
                      syncedAt := none, attempts := 0 } : OutboxRow)] = [] := by
                simp [List.filter_cons, hid]
              rw [this, List.append_nil]
          have hrest : ∀ e' ∈ rest, (entryOf e').id ≠ x :=
            fun e' he' => hne e' (List.mem_cons_of_mem e he')
          by_cases hf : forwardOk e = true
          · rw [if_pos hf] at h
            have := ih _ _ h hrest
            rw [this, filter_markSynced_ne _ _ _ _ hid, ht1]
          · rw [if_neg hf] at h
            have := ih _ _ h hrest
            rw [this, filter_markFailed_ne _ _ _ hid, ht1]

/-- A dispatch run whose entries all carry fresh, pairwise distinct ids
succeeds, and every event whose forwarding failed is recorded as exactly
one failed row with one attempt. -/
theorem dispatch_ok (entryOf : DomainEvent → OutboxEntry)
    (forwardOk : DomainEvent → Bool) (now : Nat) :
    ∀ (events : List DomainEvent) (t : OutboxTable),
      (∀ e ∈ events, (entryOf e).id ∉ rowIds t) →
      (events.map (fun e => (entryOf e).id)).Nodup →
      ∃ t', Dispatcher.dispatch entryOf forwardOk now events t = .ok t' ∧
        ∀ e ∈ events, forwardOk e = false →
          t'.filter (fun r => r.id == (entryOf e).id)
            = [{ SQLiteStore.rowOf (entryOf e) with status := "failed", attempts := 1 }] := by
  intro events
  induction events with
  | nil =>
      intro t _ _
      exact ⟨t, rfl, fun e he => absurd he (List.not_mem_nil e)⟩
  | cons e rest ih =>
      intro t hfresh hnodup
      have hid : (entryOf e).id ∉ rowIds t := hfresh e (List.mem_cons_self e rest)
      have happ := append_fresh t (entryOf e) hid
      set row := SQLiteStore.rowOf (entryOf e) with hrow
      have hids1 : rowIds (t ++ [row]) = rowIds t ++ [(entryOf e).id] := by
        unfold rowIds
        rw [List.map_append]
        rfl
      have hnd : ((entryOf e).id ∉ rest.map (fun e' => (entryOf e').id)) ∧
          (rest.map (fun e' => (entryOf e').id)).Nodup := by
        rw [List.map_cons, List.nodup_cons] at hnodup
        exact hnodup
      set t2 := if forwardOk e
                then SQLiteStore.markSynced (t ++ [row]) (entryOf e).id now
                else SQLiteStore.markFailed (t ++ [row]) (entryOf e).id with ht2
      have hids2 : rowIds t2 = rowIds t ++ [(entryOf e).id] := by
        rw [ht2]
        by_cases hf : forwardOk e = true
        · rw [if_pos hf, rowIds_markSynced, hids1]
        · rw [if_neg hf, rowIds_markFailed, hids1]
      have hfresh2 : ∀ e' ∈ rest, (entryOf e').id ∉ rowIds t2 := by
        intro e' he'
        rw [hids2]
        intro hmem
        rcases List.mem_append.mp hmem with hmem | hmem
        · exact hfresh e' (List.mem_cons_of_mem e he') hmem
        · rcases List.mem_singleton.mp hmem with hEq
          exact hnd.1 (hEq ▸ List.mem_map_of_mem (fun e' => (entryOf e').id) he')
      obtain ⟨t', hdisp, hfacts⟩ := ih t2 hfresh2 hnd.2
      refine ⟨t', ?_, ?_⟩
      · unfold Dispatcher.dispatch
        rw [happ]
        exact hdisp
      · intro e' he' hf'
        rcases List.mem_cons.mp he' with he' | he'
        · subst he'
          have hpres : t'.filter (fun r => r.id == (entryOf e').id)
              = t2.filter (fun r => r.id == (entryOf e').id) := by
            apply dispatch_filter_preserve entryOf forwardOk now _ rest t2 t' hdisp
            intro e'' he''
            intro hEq
            exact hnd.1 (hEq ▸ List.mem_map_of_mem (fun x => (entryOf x).id) he'')
          rw [hpres, ht2, if_neg (by simp [hf'])]
          rw [SQLiteStore.markFailed, List.map_append]
          rw [List.filter_append]
          have h1 : (List.map (fun r => if r.id == (entryOf e').id
                then { r with status := "failed", attempts := r.attempts + 1 }
                else r) t).filter (fun r => r.id == (entryOf e').id) = [] := by
            apply filter_id_eq_nil
            have : rowIds (SQLiteStore.markFailed t (entryOf e').id) = rowIds t :=
              rowIds_markFailed t (entryOf e').id
            rw [SQLiteStore.markFailed] at this
            rw [this]
            exact hid
          rw [h1, List.nil_append]
          simp [hrow, SQLiteStore.rowOf]
        · exact hfacts e' he' hf'

end GranolaMCP

/-! ## Claim theorems -/

namespace GranolaMCP

/-- C1 (counterexample): the claim as stated is false — a Sync-returned
event that references entity id "X" but whose concrete type is not
`MeetingCreated` (here, a transcript-ready event) does not delete the cache
entry `meeting:X`; a subsequent FindByID("X") is a cache hit and does not
call the inner repository. -/
theorem sync_nonMeetingCreated_event_keeps_cache :
    CachedRepository.syncInvalidate
        [⟨"meeting:X", ⟨"X", "T", 0, "zoom"⟩, 100⟩]
        [DomainEvent.transcriptReady "X"]
      = [⟨"meeting:X", ⟨"X", "T", 0, "zoom"⟩, 100⟩] ∧
    (DomainEvent.transcriptReady "X").entityId = "X" ∧
    (CachedRepository.findByID (fun _ => .error .notFound) 10 0
        (CachedRepository.syncInvalidate
          [⟨"meeting:X", ⟨"X", "T", 0, "zoom"⟩, 100⟩]
          [DomainEvent.transcriptReady "X"]) "X").innerCalls = 0 := by
  decide

/-- C1 (amended): a successful Sync deletes the cache entry `meeting:X`
for every returned event of concrete type `MeetingCreated` referencing
entity id X — and only for events of that type — so that a subsequent
FindByID(X) misses the cache and calls the inner repository exactly once. -/
theorem sync_meetingCreated_invalidates_cache
    (db : CacheDB) (events : List DomainEvent)
    (mid title : String) (dt now ttl : Nat)
    (inner : String → Except RepoError Meeting)
    (hev : DomainEvent.meetingCreated mid title dt ∈ events) :
    CachedRepository.get (CachedRepository.syncInvalidate db events) now
        ("meeting:" ++ mid) = none ∧
    (CachedRepository.findByID inner ttl now
        (CachedRepository.syncInvalidate db events) mid).innerCalls = 1 := by
  have hnone : CachedRepository.get (CachedRepository.syncInvalidate db events) now
      ("meeting:" ++ mid) = none := by
    have hrem := syncInvalidate_removes events mid title dt db hev
    unfold CachedRepository.get
    rw [Option.map_eq_none']
    rw [List.find?_eq_none]
    intro r hr
    simp only [Bool.and_eq_true, beq_iff_eq, decide_eq_true_eq, not_and]
    intro hk
    exact absurd hk (hrem r hr)
  refine ⟨hnone, ?_⟩
  unfold CachedRepository.findByID
  rw [hnone]
  exact fetchAndStore_innerCalls inner ttl now _ mid

/-- C1 (witness): the amended theorem applied to a one-row cache and a
single MeetingCreated event for "X". -/
theorem sync_meetingCreated_invalidates_cache_witness :
    CachedRepository.get
        (CachedRepository.syncInvalidate
          [⟨"meeting:X", ⟨"X", "T", 0, "zoom"⟩, 100⟩]
          [DomainEvent.meetingCreated "X" "T" 3]) 0 ("meeting:" ++ "X") = none ∧
    (CachedRepository.findByID (fun _ => .error .notFound) 5 0
        (CachedRepository.syncInvalidate
          [⟨"meeting:X", ⟨"X", "T", 0, "zoom"⟩, 100⟩]
          [DomainEvent.meetingCreated "X" "T" 3]) "X").innerCalls = 1 :=
  sync_meetingCreated_invalidates_cache
    [⟨"meeting:X", ⟨"X", "T", 0, "zoom"⟩, 100⟩]
    [DomainEvent.meetingCreated "X" "T" 3] "X" "T" 3 0 5
    (fun _ => .error .notFound) (by decide)

/-- C2 (counterexample): the claim as stated is false — starting from the
empty store, Append "e1"; MarkFailed "e1" leaves it failed, but a
subsequent MarkSynced "e1" overwrites the failed status with synced
instead of leaving it unchanged. -/
theorem markSynced_overwrites_failed_status :
    (SQLiteStore.append [] ⟨"e1", "meeting.created", none, 0⟩).map
        (fun t1 => (SQLiteStore.markFailed t1 "e1").map OutboxRow.status)
      = .ok ["failed"] ∧
    (SQLiteStore.append [] ⟨"e1", "meeting.created", none, 0⟩).map
        (fun t1 => (SQLiteStore.markSynced (SQLiteStore.markFailed t1 "e1") "e1" 5).map
          OutboxRow.status) = .ok ["synced"] := by
  decide

/-- C2 (amended): MarkSynced sets the identified entry's status to synced
(stamping syncedAt) and MarkFailed sets it to failed (incrementing
attempts) regardless of the entry's current status — including failed            
entries being re-marked synced and synced entries re-marked failed; rows
with other ids are untouched.  The pending-only transition discipline is
not enforced by the store. -/
theorem mark_operations_unconditional
    (t : OutboxTable) (id : String) (now : Nat) (r : OutboxRow)
    (hr : r ∈ t) :
    (r.id = id →
      { r with status := "synced", syncedAt := some now }
          ∈ SQLiteStore.markSynced t id now ∧
      { r with status := "failed", attempts := r.attempts + 1 }
          ∈ SQLiteStore.markFailed t id) ∧
    (r.id ≠ id →
      r ∈ SQLiteStore.markSynced t id now ∧ r ∈ SQLiteStore.markFailed t id) := by
  constructor
  · intro h
    constructor
    · have := List.mem_map_of_mem
        (fun r : OutboxRow => if r.id == id
          then { r with status := "synced", syncedAt := some now } else r) hr
      simpa [SQLiteStore.markSynced, h] using this
    · have := List.mem_map_of_mem
        (fun r : OutboxRow => if r.id == id
          then { r with status := "failed", attempts := r.attempts + 1 } else r) hr
      simpa [SQLiteStore.markFailed, h] using this
  · intro h
    constructor
    · have := List.mem_map_of_mem
        (fun r : OutboxRow => if r.id == id
          then { r with status := "synced", syncedAt := some now } else r) hr
      simpa [SQLiteStore.markSynced, h] using this
    · have := List.mem_map_of_mem
        (fun r : OutboxRow => if r.id == id
          then { r with status := "failed", attempts := r.attempts + 1 } else r) hr
      simpa [SQLiteStore.markFailed, h] using this

/-- C2 (witness): the amended theorem applied to a one-row table. -/
theorem mark_operations_unconditional_witness :
    ("e1" = "e1" →
      ({ id := "e1", eventType := "x", payload := [], status := "synced",
         createdAt := 0, syncedAt := some 5, attempts := 0 } : OutboxRow)
          ∈ SQLiteStore.markSynced
              [{ id := "e1", eventType := "x", payload := [], status := "failed",
                 createdAt := 0, syncedAt := none, attempts := 0 }] "e1" 5 ∧
      ({ id := "e1", eventType := "x", payload := [], status := "failed",
         createdAt := 0, syncedAt := none, attempts := 1 } : OutboxRow)
          ∈ SQLiteStore.markFailed
              [{ id := "e1", eventType := "x", payload := [], status := "failed",
                 createdAt := 0, syncedAt := none, attempts := 0 }] "e1") ∧
    (("e1" : String) ≠ "e1" →
      ({ id := "e1", eventType := "x", payload := [], status := "failed",
         createdAt := 0, syncedAt := none, attempts := 0 } : OutboxRow)
          ∈ SQLiteStore.markSynced
              [{ id := "e1", eventType := "x", payload := [], status := "failed",
                 createdAt := 0, syncedAt := none, attempts := 0 }] "e1" 5 ∧
      ({ id := "e1", eventType := "x", payload := [], status := "failed",
         createdAt := 0, syncedAt := none, attempts := 0 } : OutboxRow)
          ∈ SQLiteStore.markFailed
              [{ id := "e1", eventType := "x", payload := [], status := "failed",
                 createdAt := 0, syncedAt := none, attempts := 0 }] "e1") :=
  mark_operations_unconditional
    [{ id := "e1", eventType := "x", payload := [], status := "failed",
       createdAt := 0, syncedAt := none, attempts := 0 }] "e1" 5
    { id := "e1", eventType := "x", payload := [], status := "failed",
      createdAt := 0, syncedAt := none, attempts := 0 } (by decide)

end GranolaMCP

namespace GranolaMCP

/-- C3: starting from a Closed breaker with no accumulated failures, any
sequence of at least failureThreshold consecutive failures leaves the
breaker Open, and every call gated by it before halfOpenTimeout has
elapsed since the transition fails fast with a circuit-open error and
never invokes the inner repository. -/
theorem breaker_open_blocks_calls_before_timeout
    (b : Breaker) (times : List Nat) (now : Nat)
    (inner : Except RepoError Meeting)
    (hcl : b.state = .closed) (hcf : b.consecutiveFailures = 0)
    (hpos : 0 < b.failureThreshold) (hlen : b.failureThreshold ≤ times.length) :
    (Breaker.applyFailures b times).state = .opened ∧
    (now < (Breaker.applyFailures b times).lastTransitionAt +
        (Breaker.applyFailures b times).halfOpenTimeout →
      (resilientCall (Breaker.applyFailures b times) now inner).result
          = .error .circuitOpen ∧
      (resilientCall (Breaker.applyFailures b times) now inner).innerCalls = 0) := by
  have hop := applyFailures_opens times b hcl (by omega) (by omega)
  refine ⟨hop, fun hlt => ?_⟩
  have hcond : ¬ ((Breaker.applyFailures b times).lastTransitionAt +
      (Breaker.applyFailures b times).halfOpenTimeout ≤ now) := by omega
  constructor <;> simp [resilientCall, Breaker.allow, hop, hcond]

/-- C3 (witness): a breaker with threshold 2 fed two failures is Open and
rejects a call at time 5, before its transition time 4 plus timeout 10. -/
theorem breaker_open_blocks_calls_before_timeout_witness :
    (Breaker.applyFailures
        { state := .closed, consecutiveFailures := 0, consecutiveSuccesses := 0,
          lastTransitionAt := 0, failureThreshold := 2, successThreshold := 1,
          halfOpenTimeout := 10 } [3, 4]).state = .opened ∧
    (resilientCall
        (Breaker.applyFailures
          { state := .closed, consecutiveFailures := 0, consecutiveSuccesses := 0,
            lastTransitionAt := 0, failureThreshold := 2, successThreshold := 1,
            halfOpenTimeout := 10 } [3, 4]) 5
        (.error .notFound : Except RepoError Meeting)).result
      = .error .circuitOpen :=
  have h := breaker_open_blocks_calls_before_timeout
    { state := .closed, consecutiveFailures := 0, consecutiveSuccesses := 0,
      lastTransitionAt := 0, failureThreshold := 2, successThreshold := 1,
      halfOpenTimeout := 10 } [3, 4] 5 (.error .notFound) rfl rfl
    (by decide) (by decide)
  ⟨h.1, (h.2 (by decide)).1⟩

/-- C4: when a first FindByID(id) misses the cache and the inner repository
returns a meeting (with a nonempty id and title, as every constructed
domain meeting has), the first call succeeds with one inner call, and a
second FindByID(id) issued before the TTL has elapsed succeeds without
calling the inner repository: exactly one inner call across both. -/
theorem findByID_caches_second_lookup
    (inner : String → Except RepoError Meeting) (ttl t0 t1 : Nat)
    (db : CacheDB) (id : String) (m : Meeting)
    (hmiss : CachedRepository.get db t0 ("meeting:" ++ id) = none)
    (hinner : inner id = .ok m)
    (hid : m.id ≠ "") (htitle : m.title ≠ "")
    (hfresh : t1 < t0 + ttl) :
    (CachedRepository.findByID inner ttl t0 db id).result = .ok m ∧
    (CachedRepository.findByID inner ttl t0 db id).innerCalls = 1 ∧
    ((CachedRepository.findByID inner ttl t1
        (CachedRepository.findByID inner ttl t0 db id).db id).result.isOk = true) ∧
    (CachedRepository.findByID inner ttl t1
        (CachedRepository.findByID inner ttl t0 db id).db id).innerCalls = 0 := by
  have h1 : CachedRepository.findByID inner ttl t0 db id =
      { result := .ok m,
        db := CachedRepository.set db t0 ttl ("meeting:" ++ id)
                { id := m.id, title := m.title, datetime := m.datetime,
                  source := m.source },
        innerCalls := 1 } := by
    simp [CachedRepository.findByID, hmiss, CachedRepository.fetchAndStore, hinner,
      toMeetingCacheEntry]
  have hget2 : CachedRepository.get
      (CachedRepository.set db t0 ttl ("meeting:" ++ id)
        { id := m.id, title := m.title, datetime := m.datetime, source := m.source :
          MeetingCacheEntry }) t1 ("meeting:" ++ id)
      = some { id := m.id, title := m.title, datetime := m.datetime,
               source := m.source } :=
    get_set_fresh db t0 ttl _ _ t1 hfresh
  have hnew : Meeting.new m.id m.title m.datetime m.source [] =
      .ok { id := m.id, title := m.title, datetime := m.datetime, source := m.source,
            participants := [],
            domainEvents := [.meetingCreated m.id m.title m.datetime] } := by
    simp [Meeting.new, hid, htitle]
  refine ⟨by rw [h1], by rw [h1], ?_, ?_⟩ <;>
    · rw [h1]
      simp [CachedRepository.findByID, hget2, hnew, Meeting.clearDomainEvents,
        Except.isOk, Except.toBool]

/-- C4 (witness): the theorem applied to the empty cache, an inner
repository holding meeting "m-1", and a second lookup at time 1 with
TTL 5. -/
theorem findByID_caches_second_lookup_witness :
    (CachedRepository.findByID
        (fun _ => .ok { id := "m-1", title := "Sprint", datetime := 9,
                        source := "zoom", participants := [], domainEvents := [] })
        5 0 [] "m-1").result
      = .ok { id := "m-1", title := "Sprint", datetime := 9, source := "zoom",
              participants := [], domainEvents := [] } ∧
    (CachedRepository.findByID
        (fun _ => .ok { id := "m-1", title := "Sprint", datetime := 9,
                        source := "zoom", participants := [], domainEvents := [] })
        5 0 [] "m-1").innerCalls = 1 ∧
    ((CachedRepository.findByID
        (fun _ => .ok { id := "m-1", title := "Sprint", datetime := 9,
                        source := "zoom", participants := [], domainEvents := [] })
        5 1
        (CachedRepository.findByID
          (fun _ => .ok { id := "m-1", title := "Sprint", datetime := 9,
                          source := "zoom", participants := [], domainEvents := [] })
          5 0 [] "m-1").db "m-1").result.isOk = true) ∧
    (CachedRepository.findByID
        (fun _ => .ok { id := "m-1", title := "Sprint", datetime := 9,
                        source := "zoom", participants := [], domainEvents := [] })
        5 1
        (CachedRepository.findByID
          (fun _ => .ok { id := "m-1", title := "Sprint", datetime := 9,
                          source := "zoom", participants := [], domainEvents := [] })
          5 0 [] "m-1").db "m-1").innerCalls = 0 :=
  findByID_caches_second_lookup
    (fun _ => .ok { id := "m-1", title := "Sprint", datetime := 9,
                    source := "zoom", participants := [], domainEvents := [] })
    5 0 1 [] "m-1"
    { id := "m-1", title := "Sprint", datetime := 9, source := "zoom",
      participants := [], domainEvents := [] }
    rfl rfl (by decide) (by decide) (by decide)

end GranolaMCP

namespace GranolaMCP

/-- C5: appending an entry to the empty store inserts exactly one pending
row with 0 attempts, which ListPending returns; after MarkSynced it is no
longer pending; after MarkFailed instead it is no longer pending and its
attempts count is incremented from 0 to 1 (and its status is failed). -/
theorem outbox_append_mark_lifecycle (e : OutboxEntry) (now : Nat) :
    SQLiteStore.append [] e = .ok [SQLiteStore.rowOf e] ∧
    (SQLiteStore.rowOf e).status = "pending" ∧
    (SQLiteStore.rowOf e).attempts = 0 ∧
    SQLiteStore.listPending [SQLiteStore.rowOf e] = [SQLiteStore.rowOf e] ∧
    SQLiteStore.listPending
        (SQLiteStore.markSynced [SQLiteStore.rowOf e] e.id now) = [] ∧
    SQLiteStore.listPending (SQLiteStore.markFailed [SQLiteStore.rowOf e] e.id) = [] ∧
    (SQLiteStore.markFailed [SQLiteStore.rowOf e] e.id).map OutboxRow.attempts = [1] ∧
    (SQLiteStore.markFailed [SQLiteStore.rowOf e] e.id).map OutboxRow.status
      = ["failed"] := by
  refine ⟨?_, rfl, rfl, ?_, ?_, ?_, ?_, ?_⟩
  · simp [SQLiteStore.append, SQLiteStore.rowOf]
  · simp [SQLiteStore.listPending, SQLiteStore.rowOf, List.insertionSort,
      List.orderedInsert]
  · simp [SQLiteStore.listPending, SQLiteStore.markSynced, SQLiteStore.rowOf]
  · simp [SQLiteStore.listPending, SQLiteStore.markFailed, SQLiteStore.rowOf]
  · simp [SQLiteStore.markFailed, SQLiteStore.rowOf]
  · simp [SQLiteStore.markFailed, SQLiteStore.rowOf]

/-- C6: the cache-read step of FindByID serves an entry exactly when some
row with the requested key is strictly before its expiry: a Get on an
absent key, or on a key whose expiresAt is less than or equal to now,
returns not-found — no background sweep involved. -/
theorem cache_get_served_iff_fresh (db : CacheDB) (now : Nat) (key : String) :
    (CachedRepository.get db now key).isSome = true ↔
      ∃ r ∈ db, r.key = key ∧ now < r.expiresAt := by
  simp [CachedRepository.get, List.find?_isSome]

/-- C7: for every state of the outbox table — hence after any interleaving
of Append, MarkSynced and MarkFailed — ListPending returns exactly the
rows with pending status (as a permutation of the pending filter, so all
of them and no others), sorted by creation timestamp ascending. -/
theorem listPending_pending_sorted_only (t : OutboxTable) :
    List.Sorted SQLiteStore.createdLE (SQLiteStore.listPending t) ∧
    List.Perm (SQLiteStore.listPending t)
      (t.filter (fun r => r.status == "pending")) ∧
    ∀ r, r ∈ SQLiteStore.listPending t ↔ r ∈ t ∧ r.status = "pending" := by
  refine ⟨List.sorted_insertionSort _ _, List.perm_insertionSort _ _, ?_⟩
  intro r
  exact listPending_mem t r

end GranolaMCP

namespace GranolaMCP

/-- C8 (counterexample): the claim's "replayable via ListPending" conjunct
is false — dispatching one event whose forwarding fails returns success
and records the entry with status failed, but ListPending (which returns
pending rows only) does not return it. -/
theorem dispatch_failed_entry_absent_from_listPending :
    Dispatcher.dispatch (fun _ => ⟨"e1", "meeting.created", none, 0⟩)
        (fun _ => false) 7 [DomainEvent.transcriptReady "X"] []
      = .ok [{ id := "e1", eventType := "meeting.created",
               payload := emptyJsonPayload, status := "failed", createdAt := 0,
               syncedAt := none, attempts := 1 }] ∧
    SQLiteStore.listPending
        [{ id := "e1", eventType := "meeting.created", payload := emptyJsonPayload,
           status := "failed", createdAt := 0, syncedAt := none, attempts := 1 }]
      = [] := by
  decide

/-- C8 (amended): when the serialized entries carry fresh, pairwise
distinct ids, Dispatch succeeds even when forwarding fails for some
events — the forwarding error is not propagated — and each such event's
entry is recorded with status failed and one attempt; the failed entry is
not returned by ListPending (it becomes replayable only after an external
reset to pending).  Conversely, a failing durable Append (here, a
duplicate primary-key id) makes Dispatch return that error. -/
theorem dispatch_durability_error_and_swallowed_forwarding
    (entryOf : DomainEvent → OutboxEntry) (forwardOk : DomainEvent → Bool)
    (now : Nat) (events : List DomainEvent) (t : OutboxTable)
    (hfresh : ∀ e ∈ events, (entryOf e).id ∉ rowIds t)
    (hnodup : (events.map (fun e => (entryOf e).id)).Nodup) :
    (∃ t', Dispatcher.dispatch entryOf forwardOk now events t = .ok t' ∧
       ∀ e ∈ events, forwardOk e = false →
         (∃ r, r ∈ t' ∧ r.id = (entryOf e).id ∧ r.status = "failed" ∧
            r.attempts = 1) ∧
         ∀ r ∈ SQLiteStore.listPending t', r.id ≠ (entryOf e).id) ∧
    (∀ (e0 : DomainEvent) (rest : List DomainEvent) (t0 : OutboxTable),
       (entryOf e0).id ∈ rowIds t0 →
       Dispatcher.dispatch entryOf forwardOk now (e0 :: rest) t0
         = .error .uniqueViolation) := by
  constructor
  · obtain ⟨t', hdisp, hfacts⟩ :=
      dispatch_ok entryOf forwardOk now events t hfresh hnodup
    refine ⟨t', hdisp, ?_⟩
    intro e he hf
    have hfil := hfacts e he hf
    have hmemf : ({ SQLiteStore.rowOf (entryOf e) with
        status := "failed", attempts := 1 } : OutboxRow)
        ∈ t'.filter (fun r => r.id == (entryOf e).id) := by
      rw [hfil]
      exact List.mem_singleton_self _
    have hmem := List.mem_of_mem_filter hmemf
    refine ⟨⟨_, hmem, rfl, rfl, rfl⟩, ?_⟩
    intro r hr hEq
    have hp := (listPending_mem t' r).mp hr
    have hrf : r ∈ t'.filter (fun r => r.id == (entryOf e).id) :=
      List.mem_filter.mpr ⟨hp.1, by simp [hEq]⟩
    rw [hfil] at hrf
    have hreq := List.mem_singleton.mp hrf
    rw [hreq] at hp
    simpa [SQLiteStore.rowOf] using hp.2
  · intro e0 rest t0 hmem
    obtain ⟨r, hr, hrid⟩ := List.mem_map.mp hmem
    have hany : t0.any (fun r => r.id == (entryOf e0).id) = true := by
      rw [List.any_eq_true]
      exact ⟨r, hr, by simp [hrid]⟩
    have happ : SQLiteStore.append t0 (entryOf e0) = .error .uniqueViolation := by
      unfold SQLiteStore.append
      rw [hany]
      rfl
    unfold Dispatcher.dispatch
    rw [happ]

/-- C8 (witness): the amended theorem applied to a single event with a
fresh entry id on the empty table. -/
theorem dispatch_durability_error_and_swallowed_forwarding_witness :
    (∃ t', Dispatcher.dispatch (fun _ => ⟨"e1", "meeting.created", none, 0⟩)
        (fun _ => false) 7 [DomainEvent.transcriptReady "X"] [] = .ok t' ∧
       ∀ e ∈ [DomainEvent.transcriptReady "X"], (fun _ => false) e = false →
         (∃ r, r ∈ t' ∧
            r.id = ((fun _ => (⟨"e1", "meeting.created", none, 0⟩ : OutboxEntry)) e).id ∧
            r.status = "failed" ∧ r.attempts = 1) ∧
         ∀ r ∈ SQLiteStore.listPending t',
           r.id ≠ ((fun _ => (⟨"e1", "meeting.created", none, 0⟩ : OutboxEntry)) e).id) ∧
    (∀ (e0 : DomainEvent) (rest : List DomainEvent) (t0 : OutboxTable),
       ((fun _ => (⟨"e1", "meeting.created", none, 0⟩ : OutboxEntry)) e0).id ∈ rowIds t0 →
       Dispatcher.dispatch (fun _ => ⟨"e1", "meeting.created", none, 0⟩)
           (fun _ => false) 7 (e0 :: rest) t0 = .error .uniqueViolation) :=
  dispatch_durability_error_and_swallowed_forwarding
    (fun _ => ⟨"e1", "meeting.created", none, 0⟩) (fun _ => false) 7
    [DomainEvent.transcriptReady "X"] [] (by decide) (by decide)

/-- C9: the composition root always wires the resilient repository with a
rate-limiter burst capacity of exactly two times the configured base rate,
for every loaded configuration; the configuration surface
(`RateLimitSettings`) has no independent burst field. -/
theorem rateBurst_is_twice_rateLimit (res : ResilienceSettings) :
    (mkResilienceConfig res).rateBurst = 2 * res.rateLimit.rate ∧
    (mkResilienceConfig res).rateBurst = 2 * (mkResilienceConfig res).rateLimit := by
  constructor <;> simp [mkResilienceConfig, Nat.mul_comm]

/-- C10: whenever FindByID answers from the cache (no inner call), the
returned meeting is reconstructed from the four-field snapshot and carries
no participants and no pending domain events — regardless of what the
originally cached meeting carried, so a cache-hit result need not equal
the cache-miss result. -/
theorem cache_hit_has_no_participants_or_events
    (inner : String → Except RepoError Meeting) (ttl now : Nat)
    (db : CacheDB) (id : String)
    (hhit : (CachedRepository.findByID inner ttl now db id).innerCalls = 0) :
    ∀ m, (CachedRepository.findByID inner ttl now db id).result = .ok m →
      m.participants = [] ∧ m.domainEvents = [] := by
  intro m hm
  unfold CachedRepository.findByID at hhit hm
  cases hget : CachedRepository.get db now ("meeting:" ++ id) with
  | none =>
      rw [hget, fetchAndStore_innerCalls] at hhit
      exact absurd hhit one_ne_zero
  | some entry =>
      cases hnew : Meeting.new entry.id entry.title entry.datetime entry.source [] with
      | error e =>
          rw [hget] at hhit
          simp only [hnew] at hhit
          rw [fetchAndStore_innerCalls] at hhit
          exact absurd hhit one_ne_zero
      | ok m0 =>
          rw [hget] at hm
          simp only [hnew] at hm
          have hm' : m = m0.clearDomainEvents := by
            simpa using hm.symm
          subst hm'
          refine ⟨?_, rfl⟩
          simpa [Meeting.clearDomainEvents] using
            meeting_new_participants entry.id entry.title entry.datetime
              entry.source [] m0 hnew

/-- C10 (witness): the theorem applied to a cache holding a snapshot for
"x": the hit makes no inner call and the reconstructed meeting has no
participants and no domain events. -/
theorem cache_hit_has_no_participants_or_events_witness :
    ({ id := "x", title := "T", datetime := 0, source := "zoom",
       participants := [], domainEvents := [] } : Meeting).participants = [] ∧
    ({ id := "x", title := "T", datetime := 0, source := "zoom",
       participants := [], domainEvents := [] } : Meeting).domainEvents = [] :=
  cache_hit_has_no_participants_or_events (fun _ => .error .notFound) 7 0
    [⟨"meeting:x", ⟨"x", "T", 0, "zoom"⟩, 10⟩] "x" (by decide)
    { id := "x", title := "T", datetime := 0, source := "zoom",
      participants := [], domainEvents := [] } (by decide)

end GranolaMCP
